import Mathlib

/-!
Verification of the kitty SSH bootstrap script
(`src/shell-integration/ssh/bootstrap.py`).

The script is a single-threaded pipeline: read a framed base64 payload from
the controlling terminal, unpack it, apply environment directives, and exec
the user's login shell.  We embed the pure decision content of each stage:

* the line-oriented receive protocol of `iter_base64_data` / `get_data`
  (a three-state machine over a stream of lines);
* `base64.standard_b64decode` on alphabet-only input (the body lines);
* the environment-directive interpreter `apply_env_vars` with a JSON-array
  parser restricted to arrays of strings and booleans (the shapes the
  directives use) and `os.path.expandvars`;
* the recursive directory merge `move`, including `shutil.move`'s
  symlink-following `os.path.isdir` dispatch on destination collisions;
* the `try/finally` echo-restore discipline of `main` / `cleanup`;
* the shell-launch selector at the end of `main` together with
  `exec_zsh_with_integration`, `exec_fish_with_integration` and
  `exec_bash_with_integration`.

Strings are modelled as Lean `String`s, manipulated through structural
recursion on their character lists so that every definition evaluates by
kernel reduction on concrete inputs.  Byte strings from the script are
modelled as `String` (the protocol lines are ASCII); decoded payload bytes
are `List Nat`.
-/

namespace KittyBootstrap

/-! ## Small string helpers (ASCII semantics of the Python operations used) -/

/-- The ASCII whitespace characters stripped by Python's `bytes.rstrip()` /
`str.rstrip()` (restricted to ASCII, which is what the protocol lines use). -/
def isSpaceChar (c : Char) : Bool :=
  c = ' ' || c = '\t' || c = '\n' || c = '\r' || c = '\x0b' || c = '\x0c'

/-- Strip trailing whitespace from a character list. -/
def rstripL (l : List Char) : List Char :=
  (l.reverse.dropWhile isSpaceChar).reverse

/-- `s.rstrip()`: strip trailing (ASCII) whitespace. -/
def rstrip (s : String) : String := String.mk (rstripL s.data)

theorem rstripL_idem (l : List Char) : rstripL (rstripL l) = rstripL l := by
  unfold rstripL
  rw [List.reverse_reverse]
  rcases h : l.reverse.dropWhile isSpaceChar with _ | ⟨c, rest⟩
  · simp
  · have hl : 0 < (l.reverse.dropWhile isSpaceChar).length := by simp [h]
    have hc := List.dropWhile_get_zero_not isSpaceChar l.reverse hl
    rw [List.get_of_eq h] at hc
    simp only [List.get] at hc
    simp at hc
    simp [List.dropWhile, hc]

theorem rstrip_idem (s : String) : rstrip (rstrip s) = rstrip s := by
  simp [rstrip, rstripL_idem]

/-! ## base64 decoding

Model of `base64.standard_b64decode` for inputs made only of alphabet
characters and `=` padding (which is what the protocol body lines contain;
Python additionally discards other bytes before decoding).  Returns `none`
where Python raises `binascii.Error`. -/

/-- Value of a single base64 alphabet character. -/
def b64charVal (c : Char) : Option Nat :=
  if 'A' ≤ c && c ≤ 'Z' then some (c.toNat - 'A'.toNat)
  else if 'a' ≤ c && c ≤ 'z' then some (c.toNat - 'a'.toNat + 26)
  else if '0' ≤ c && c ≤ '9' then some (c.toNat - '0'.toNat + 52)
  else if c = '+' then some 62
  else if c = '/' then some 63
  else none

/-- Decode a list of base64 characters, four at a time; the last quad may be
padded with one or two `=`.  Python does not reject nonzero discarded bits,
so neither do we. -/
def b64chunks : List Char → Option (List Nat)
  | [] => some []
  | a :: b :: c :: d :: rest => do
    let va ← b64charVal a
    let vb ← b64charVal b
    if c = '=' then
      if d = '=' && rest.isEmpty then
        some [va * 4 + vb / 16]
      else none
    else do
      let vc ← b64charVal c
      if d = '=' then
        if rest.isEmpty then some [va * 4 + vb / 16, (vb % 16) * 16 + vc / 4]
        else none
      else do
        let vd ← b64charVal d
        let tail ← b64chunks rest
        some ([va * 4 + vb / 16, (vb % 16) * 16 + vc / 4, (vc % 4) * 64 + vd] ++ tail)
  | _ => none

/-- `base64.standard_b64decode` on a string of alphabet characters. -/
def b64decode (s : String) : Option (List Nat) := b64chunks s.data

/-! ## The receive protocol (`iter_base64_data` / `get_data`)

`iter_base64_data` reads `f.readline().rstrip()` in a loop and classifies
each line using a three-valued `started` state:

* `started = 0` (noise zone): a line equal to `KITTY_DATA_START` moves to
  state 1; anything else is appended to `leading_data`;
* `started = 1` (status line): `OK` moves to state 2; anything else raises
  `SystemExit` carrying the line's text (decoded and rstripped again);
* `started = 2` (payload zone): `KITTY_DATA_END` stops; anything else is
  yielded as a body line.

`get_data` joins the yielded lines and base64-decodes the result.  We model
the stream as a list of raw lines.  Two drivers share the step function:
`runList` consumes the available lines and reports `exhausted` when the list
ends mid-protocol, and `runFuel` adds Python's end-of-stream behaviour
(`readline` returning the empty byte string forever), so that
(non-)termination on a truncated stream can be stated. -/

/-- State of the `iter_base64_data` loop: the `started` counter, the
accumulated `leading_data`, and the body lines yielded so far. -/
structure IterSt where
  started : Nat
  leading : String
  body : List String
  deriving Repr, DecidableEq

/-- Terminal results of the loop: the end marker was reached with the given
noise and body lines, or a non-`OK` status line raised `SystemExit` with the
given message. -/
inductive IterRes where
  | done (leading : String) (body : List String)
  | errStatus (msg : String)
  deriving Repr, DecidableEq

/-- One loop iteration of `iter_base64_data` on a raw line. -/
def iterStep (st : IterSt) (raw : String) : IterSt ⊕ IterRes :=
  let line := rstrip raw
  match st.started with
  | 0 =>
    if line = "KITTY_DATA_START" then .inl { st with started := 1 }
    else .inl { st with leading := st.leading ++ line }
  | 1 =>
    if line = "OK" then .inl { st with started := 2 }
    else .inr (.errStatus (rstrip line))
  | _ =>
    if line = "KITTY_DATA_END" then .inr (.done st.leading st.body)
    else .inl { st with body := st.body ++ [line] }

/-- Run the loop over the available lines; `none` means the list was
exhausted while the loop was still reading (the script would block on
`readline` / keep consuming the stream). -/
def runList (st : IterSt) : List String → Option IterRes
  | [] => none
  | l :: rest =>
    match iterStep st l with
    | .inr r => some r
    | .inl st' => runList st' rest

/-- Fuel-bounded run with Python end-of-stream semantics: once the lines are
exhausted, every further `readline` returns the empty string.  `none` means
the loop was still running after `fuel` iterations. -/
def runFuel : Nat → IterSt → List String → Option IterRes
  | 0, _, _ => none
  | fuel + 1, st, lines =>
    let l := lines.headD ""
    match iterStep st (l) with
    | .inr r => some r
    | .inl st' => runFuel fuel st' lines.tail

/-- Initial loop state (`started = 0`, empty `leading_data`, no body). -/
def iterInit : IterSt := ⟨0, "", []⟩

/-- Result of `get_data`'s receive part. -/
inductive RecvResult where
  | ok (bytes : List Nat)
  | err (msg : String)
  | incomplete
  deriving Repr, DecidableEq

/-- The receive part of `get_data`: run `iter_base64_data` over the stream,
join the yielded lines and `base64.standard_b64decode` the result.
`.err` models the raised `SystemExit` / `binascii.Error`; `.incomplete`
models the loop still reading when the given lines end (see `runFuel`). -/
def get_data (lines : List String) : RecvResult :=
  match runList iterInit lines with
  | none => .incomplete
  | some (.errStatus m) => .err m
  | some (.done _ body) =>
    match b64decode (body.foldl (· ++ ·) "") with
    | some bs => .ok bs
    | none => .err "Incorrect padding"

/-- In the noise zone, lines that do not strip to the start marker only grow
`leading_data`; the loop state otherwise survives unchanged. -/
theorem runList_noise (noise : List String) (st : IterSt) (rest : List String)
    (h0 : st.started = 0)
    (hn : ∀ l ∈ noise, rstrip l ≠ "KITTY_DATA_START") :
    ∃ ld, runList st (noise ++ rest) = runList ⟨0, ld, st.body⟩ rest := by
  induction noise generalizing st with
  | nil =>
    refine ⟨st.leading, ?_⟩
    have : st = ⟨0, st.leading, st.body⟩ := by
      cases st; simp_all
    rw [← this]
    rfl
  | cons l noise ih =>
    have hl : rstrip l ≠ "KITTY_DATA_START" := hn l (List.mem_cons_self l noise)
    have step : iterStep st l = .inl { st with leading := st.leading ++ rstrip l } := by
      simp [iterStep, h0, hl]
    simp only [List.cons_append, runList, step]
    exact ih _ h0 (fun x hx => hn x (List.mem_cons_of_mem l hx))

/-- In the payload zone, lines that do not strip to the end marker are
yielded (stripped) in order, and the end marker stops the loop. -/
theorem runList_body (body : List String) (st : IterSt) (rest : List String)
    (h2 : st.started = 2)
    (hb : ∀ l ∈ body, rstrip l ≠ "KITTY_DATA_END") :
    runList st (body ++ "KITTY_DATA_END" :: rest) =
      some (.done st.leading (st.body ++ body.map rstrip)) := by
  induction body generalizing st with
  | nil =>
    have step : iterStep st "KITTY_DATA_END" = .inr (.done st.leading st.body) := by
      simp [iterStep, h2]
      rfl
    simp [runList, step]
  | cons l body ih =>
    have hl : rstrip l ≠ "KITTY_DATA_END" := hb l (List.mem_cons_self l body)
    have step : iterStep st l = .inl { st with body := st.body ++ [rstrip l] } := by
      simp [iterStep, h2, hl]
    simp only [List.cons_append, runList, step]
    refine (ih { st with body := st.body ++ [rstrip l] } h2
      (fun x hx => hb x (List.mem_cons_of_mem l hx))).trans ?_
    simp

/-- C1: for every well-formed frame — any leading noise lines (none equal,
after stripping, to `KITTY_DATA_START`), the start marker, the `OK` status
line, `N ≥ 0` body lines (none equal to `KITTY_DATA_END`), and the end
marker — `get_data` returns exactly the base64-decoding of the concatenation
of the (stripped) body lines, independent of the noise and of any trailing
lines. -/
theorem receive_wellformed_frame_ok (noise body rest : List String) (bs : List Nat)
    (hn : ∀ l ∈ noise, rstrip l ≠ "KITTY_DATA_START")
    (hb : ∀ l ∈ body, rstrip l ≠ "KITTY_DATA_END")
    (hd : b64decode ((body.map rstrip).foldl (· ++ ·) "") = some bs) :
    get_data (noise ++ "KITTY_DATA_START" :: "OK" :: (body ++ "KITTY_DATA_END" :: rest))
      = .ok bs := by
  obtain ⟨ld, hrun⟩ := runList_noise noise iterInit
    ("KITTY_DATA_START" :: "OK" :: (body ++ "KITTY_DATA_END" :: rest)) rfl hn
  have hmarkers : runList (⟨0, ld, iterInit.body⟩ : IterSt)
      ("KITTY_DATA_START" :: "OK" :: (body ++ "KITTY_DATA_END" :: rest)) =
      runList ⟨2, ld, []⟩ (body ++ "KITTY_DATA_END" :: rest) := rfl
  have hbody := runList_body body ⟨2, ld, []⟩ rest rfl hb
  have hfull : runList iterInit
      (noise ++ "KITTY_DATA_START" :: "OK" :: (body ++ "KITTY_DATA_END" :: rest)) =
      some (.done ld (body.map rstrip)) := by
    rw [hrun, hmarkers, hbody]
    simp
  simp only [get_data, hfull]
  simp [hd]

/-- Witness for `receive_wellformed_frame_ok`: one noise line, two body
lines (`aGVs` and `bG8=`, together decoding to `hello`), and a trailing
line. -/
theorem receive_wellformed_frame_ok_witness :
    get_data (["stray"] ++ "KITTY_DATA_START" :: "OK" ::
        (["aGVs", "bG8="] ++ "KITTY_DATA_END" :: ["after"]))
      = .ok [104, 101, 108, 108, 111] := by
  exact receive_wellformed_frame_ok ["stray"] ["aGVs", "bG8="] ["after"]
    [104, 101, 108, 108, 111] (by decide) (by decide) (by rfl)

/-- C2: if the status line (the first line after the start marker) strips to
anything other than `OK`, `get_data` aborts and the `SystemExit` message is
exactly that line's (stripped) text. -/
theorem receive_bad_status_err (noise : List String) (s : String) (rest : List String)
    (hn : ∀ l ∈ noise, rstrip l ≠ "KITTY_DATA_START")
    (hs : rstrip s ≠ "OK") :
    get_data (noise ++ "KITTY_DATA_START" :: s :: rest) = .err (rstrip s) := by
  obtain ⟨ld, hrun⟩ := runList_noise noise iterInit ("KITTY_DATA_START" :: s :: rest) rfl hn
  have hstart : runList (⟨0, ld, iterInit.body⟩ : IterSt) ("KITTY_DATA_START" :: s :: rest) =
      runList ⟨1, ld, []⟩ (s :: rest) := rfl
  have stepS : iterStep ⟨1, ld, []⟩ s = .inr (.errStatus (rstrip s)) := by
    simp [iterStep, hs, rstrip_idem]
  have hfull : runList iterInit (noise ++ "KITTY_DATA_START" :: s :: rest) =
      some (.errStatus (rstrip s)) := by
    rw [hrun, hstart]
    simp only [runList, stepS]
  simp only [get_data, hfull]

/-- Witness for `receive_bad_status_err`: a sender-reported failure line. -/
theorem receive_bad_status_err_witness :
    get_data (["junk"] ++ "KITTY_DATA_START" :: "no password file" :: ["rest"])
      = .err "no password file" := by
  exact receive_bad_status_err ["junk"] "no password file" ["rest"]
    (by decide) (by decide)

/-- `receive` terminates on a stream when the loop reaches a terminal result
within some number of `readline` calls (lines past the end of the stream
read as the empty string, Python's end-of-file behaviour). -/
def receiveTerminates (lines : List String) : Prop :=
  ∃ fuel r, runFuel fuel iterInit lines = some r

/-- At end of stream in the payload zone the loop reads empty lines forever:
it never reaches a terminal result. -/
theorem runFuel_state2_eof (fuel : Nat) (st : IterSt) (h2 : st.started = 2) :
    runFuel fuel st [] = none := by
  induction fuel generalizing st with
  | zero => rfl
  | succ fuel ih =>
    have step : iterStep st "" = .inl { st with body := st.body ++ [""] } := by
      simp [iterStep, h2]
      rfl
    simp only [runFuel, List.headD_nil, step, List.tail_nil]
    exact ih _ h2

/-- Payload zone with no end marker in the remaining stream: the loop never
reaches a terminal result, for any amount of fuel. -/
theorem runFuel_state2_no_end (body : List String) (fuel : Nat) (st : IterSt)
    (h2 : st.started = 2)
    (hb : ∀ l ∈ body, rstrip l ≠ "KITTY_DATA_END") :
    runFuel fuel st body = none := by
  induction body generalizing st fuel with
  | nil => exact runFuel_state2_eof fuel st h2
  | cons l body ih =>
    cases fuel with
    | zero => rfl
    | succ fuel =>
      have hl : rstrip l ≠ "KITTY_DATA_END" := hb l (List.mem_cons_self l body)
      have step : iterStep st l = .inl { st with body := st.body ++ [rstrip l] } := by
        simp [iterStep, h2, hl]
      simp only [runFuel, List.headD_cons, step, List.tail_cons]
      exact ih _ _ h2 (fun x hx => hb x (List.mem_cons_of_mem l hx))

theorem runFuel_state1_ok_no_end (body : List String) (fuel : Nat) (st : IterSt)
    (h1 : st.started = 1)
    (hb : ∀ l ∈ body, rstrip l ≠ "KITTY_DATA_END") :
    runFuel fuel st ("OK" :: body) = none := by
  cases fuel with
  | zero => rfl
  | succ fuel =>
    have step : iterStep st "OK" = .inl { st with started := 2 } := by
      simp [iterStep, h1]
      rfl
    simp only [runFuel, List.headD_cons, step, List.tail_cons]
    exact runFuel_state2_no_end body fuel _ rfl hb

theorem runFuel_state0_start_no_end (body : List String) (fuel : Nat) (st : IterSt)
    (h0 : st.started = 0)
    (hb : ∀ l ∈ body, rstrip l ≠ "KITTY_DATA_END") :
    runFuel fuel st ("KITTY_DATA_START" :: "OK" :: body) = none := by
  cases fuel with
  | zero => rfl
  | succ fuel =>
    have step : iterStep st "KITTY_DATA_START" = .inl { st with started := 1 } := by
      simp [iterStep, h0]
      rfl
    simp only [runFuel, List.headD_cons, step, List.tail_cons]
    exact runFuel_state1_ok_no_end body fuel _ rfl hb

/-- C3 counterexample: on the stream consisting of exactly the start marker
and the `OK` status line (which then ends before any `KITTY_DATA_END`),
`receive` does not terminate at all — for every number of `readline` calls
the loop is still reading — so it does not "terminate and fail with a
protocol error" as claimed. -/
theorem receive_truncated_does_not_terminate :
    ¬ receiveTerminates ["KITTY_DATA_START", "OK"] := by
  rintro ⟨fuel, r, h⟩
  rw [runFuel_state0_start_no_end [] fuel iterInit rfl (by simp)] at h
  exact Option.noConfusion h

theorem runFuel_state0_noise (noise body : List String) (fuel : Nat) (st : IterSt)
    (h0 : st.started = 0)
    (hn : ∀ l ∈ noise, rstrip l ≠ "KITTY_DATA_START")
    (hb : ∀ l ∈ body, rstrip l ≠ "KITTY_DATA_END") :
    runFuel fuel st (noise ++ "KITTY_DATA_START" :: "OK" :: body) = none := by
  induction noise generalizing fuel st with
  | nil => exact runFuel_state0_start_no_end body fuel st h0 hb
  | cons l noise ih =>
    cases fuel with
    | zero => rfl
    | succ fuel =>
      have hl : rstrip l ≠ "KITTY_DATA_START" := hn l (List.mem_cons_self l noise)
      have step : iterStep st l = .inl { st with leading := st.leading ++ rstrip l } := by
        simp [iterStep, h0, hl]
      simp only [List.cons_append, runFuel, List.headD_cons, step, List.tail_cons]
      exact ih fuel _ h0 (fun x hx => hn x (List.mem_cons_of_mem l hx))

/-- C3 amended: for every input stream that ends (no further lines) after
the start marker and `OK` status line but before any `KITTY_DATA_END` line,
`receive` never terminates — it keeps reading forever instead of failing
with an unterminated-stream protocol error.  (The loop has no end-of-stream
check: at end of stream every `readline` yields the empty string, which is
accumulated as one more payload line.) -/
theorem receive_no_end_marker_reads_forever (fuel : Nat) (noise body : List String)
    (hn : ∀ l ∈ noise, rstrip l ≠ "KITTY_DATA_START")
    (hb : ∀ l ∈ body, rstrip l ≠ "KITTY_DATA_END") :
    runFuel fuel iterInit (noise ++ "KITTY_DATA_START" :: "OK" :: body) = none :=
  runFuel_state0_noise noise body fuel iterInit rfl hn hb

/-- Witness for `receive_no_end_marker_reads_forever`: a truncated stream
with one noise line and one body line, probed with fuel 10. -/
theorem receive_no_end_marker_reads_forever_witness :
    runFuel 10 iterInit (["stray"] ++ "KITTY_DATA_START" :: "OK" :: ["aGVs"]) = none := by
  exact receive_no_end_marker_reads_forever 10 ["stray"] ["aGVs"] (by decide) (by decide)

/-! ## Process environment

`os.environ` is modelled as an association list with unique keys
(assignment replaces in place, `pop` removes). -/

/-- A process environment. -/
abbrev Env := List (String × String)

/-- `os.environ.get(k)`. -/
def envGet : Env → String → Option String
  | [], _ => none
  | (k', v') :: rest, k => if k' = k then some v' else envGet rest k

/-- `os.environ[k] = v`: replace in place, or append. -/
def envSet : Env → String → String → Env
  | [], k, v => [(k, v)]
  | (k', v') :: rest, k, v =>
    if k' = k then (k, v) :: rest else (k', v') :: envSet rest k v

/-- `os.environ.pop(k, None)`: drop the binding if present. -/
def envPop : Env → String → Env
  | [], _ => []
  | (k', v') :: rest, k =>
    if k' = k then envPop rest k else (k', v') :: envPop rest k

theorem envGet_envSet_ne (e : Env) (k k' v : String) (h : k ≠ k') :
    envGet (envSet e k' v) k = envGet e k := by
  induction e with
  | nil => simp [envSet, envGet, Ne.symm h]
  | cons p rest ih =>
    obtain ⟨a, b⟩ := p
    by_cases ha : a = k'
    · subst ha
      simp [envSet, envGet, Ne.symm h]
    · simp [envSet, envGet, ha, ih]

theorem envGet_envPop_ne (e : Env) (k k' : String) (h : k ≠ k') :
    envGet (envPop e k') k = envGet e k := by
  induction e with
  | nil => simp [envPop]
  | cons p rest ih =>
    obtain ⟨a, b⟩ := p
    by_cases ha : a = k'
    · subst ha
      simp [envPop, envGet, Ne.symm h, ih]
    · simp [envPop, envGet, ha, ih]

/-! ## A JSON value parser for the directive mini-language

The manifest lines carry JSON arrays whose elements are strings or booleans
(`json.loads` restricted to the shapes `data.sh` uses; `\uXXXX` escapes are
not modelled).  The parser is fuel-bounded (the fuel is the input length,
which every step decreases). -/

/-- JSON values appearing in the directive arrays. -/
inductive JVal where
  | str (s : String)
  | bool (b : Bool)
  deriving Repr, DecidableEq

/-- Skip JSON whitespace. -/
def jskipWs (l : List Char) : List Char :=
  l.dropWhile (fun c => c = ' ' || c = '\t' || c = '\n' || c = '\r')

/-- Parse the body of a JSON string literal (after the opening quote),
returning the content and the remainder after the closing quote. -/
def jstringBody : Nat → List Char → Option (List Char × List Char)
  | 0, _ => none
  | _ + 1, [] => none
  | fuel + 1, c :: rest =>
    if c = '"' then some ([], rest)
    else if c = '\\' then
      match rest with
      | [] => none
      | e :: rest' =>
        let esc : Option Char :=
          if e = '"' then some '"'
          else if e = '\\' then some '\\'
          else if e = '/' then some '/'
          else if e = 'n' then some '\n'
          else if e = 't' then some '\t'
          else if e = 'r' then some '\r'
          else if e = 'b' then some (Char.ofNat 8)
          else if e = 'f' then some (Char.ofNat 12)
          else none
        match esc with
        | none => none
        | some ch =>
          match jstringBody fuel rest' with
          | none => none
          | some (cs, r) => some (ch :: cs, r)
    else
      match jstringBody fuel rest with
      | none => none
      | some (cs, r) => some (c :: cs, r)

/-- Parse one array element (a string or boolean literal). -/
def jitem (fuel : Nat) (l : List Char) : Option (JVal × List Char) :=
  match jskipWs l with
  | '"' :: rest =>
    match jstringBody fuel rest with
    | none => none
    | some (cs, r) => some (.str (String.mk cs), r)
  | 't' :: 'r' :: 'u' :: 'e' :: r => some (.bool true, r)
  | 'f' :: 'a' :: 'l' :: 's' :: 'e' :: r => some (.bool false, r)
  | _ => none

/-- Parse the rest of an array after one element: `, item ... ]`. -/
def jtail : Nat → List Char → Option (List JVal × List Char)
  | 0, _ => none
  | fuel + 1, l =>
    match jskipWs l with
    | ']' :: r => some ([], r)
    | ',' :: r =>
      match jitem fuel r with
      | none => none
      | some (v, r') =>
        match jtail fuel r' with
        | none => none
        | some (vs, r'') => some (v :: vs, r'')
    | _ => none

/-- `json.loads` for a whole array of strings/booleans: the entire input
must be consumed (up to trailing whitespace). -/
def jsonLoadsArr (s : String) : Option (List JVal) :=
  let fuel := s.data.length + 1
  match jskipWs s.data with
  | '[' :: r =>
    match jskipWs r with
    | ']' :: r' => if (jskipWs r').isEmpty then some [] else none
    | r' =>
      match jitem fuel r' with
      | none => none
      | some (v, r'') =>
        match jtail fuel r'' with
        | none => none
        | some (vs, r3) => if (jskipWs r3).isEmpty then some (v :: vs) else none
  | _ => none

/-! ## `os.path.expandvars` (posixpath, ASCII word characters) -/

/-- `\w` under `re.ASCII`. -/
def isWordChar (c : Char) : Bool := c.isAlphanum || c = '_'

/-- Split a `${...}` body: the characters before the first `}` and the
remainder after it; `none` when there is no closing brace. -/
def splitBrace : List Char → Option (List Char × List Char)
  | [] => none
  | c :: rest =>
    if c = '}' then some ([], rest)
    else
      match splitBrace rest with
      | none => none
      | some (a, b) => some (c :: a, b)

/-- The scanning loop of `posixpath.expandvars`: at `$name` or `${name}`,
substitute the environment value if the name is set (the substituted value
is not rescanned), otherwise leave the reference verbatim; all other
characters are copied. -/
def expandGo (env : Env) : Nat → List Char → List Char
  | 0, l => l
  | _ + 1, [] => []
  | fuel + 1, '$' :: rest =>
    match rest with
    | '{' :: r2 =>
      match splitBrace r2 with
      | some (name, r3) =>
        match envGet env (String.mk name) with
        | some v => v.data ++ expandGo env fuel r3
        | none => '$' :: '{' :: (name ++ '}' :: expandGo env fuel r3)
      | none => '$' :: expandGo env fuel rest
    | _ =>
      let name := rest.takeWhile isWordChar
      if name.isEmpty then '$' :: expandGo env fuel rest
      else
        match envGet env (String.mk name) with
        | some v => v.data ++ expandGo env fuel (rest.drop name.length)
        | none => '$' :: (name ++ expandGo env fuel (rest.drop name.length))
  | fuel + 1, c :: rest => c :: expandGo env fuel rest

/-- `os.path.expandvars(s)` against the given environment. -/
def expandvars (env : Env) (s : String) : String :=
  String.mk (expandGo env (s.data.length + 1) s.data)

/-! ## `apply_env_vars` -/

/-- Python truthiness of the directive values that can appear as the
`literal_quote` flag. -/
def truthy : JVal → Bool
  | .bool b => b
  | .str s => !s.data.isEmpty

/-- `str.splitlines()` for newline-terminated text (the manifest is plain
`\n`-separated lines): interior empties kept, no trailing empty line. -/
def splitLinesGo (cur : List Char) : List Char → List String
  | [] => if cur.isEmpty then [] else [String.mk cur.reverse]
  | c :: rest =>
    if c = '\n' then String.mk cur.reverse :: splitLinesGo [] rest
    else splitLinesGo (c :: cur) rest

def splitLines (s : String) : List String := splitLinesGo [] s.data

/-- `isPrefixL p l`: `p` is a prefix of `l`. -/
def isPrefixL : List Char → List Char → Bool
  | [], _ => true
  | _ :: _, [] => false
  | p :: ps, c :: cs => p = c && isPrefixL ps cs

/-- `line.startswith(pre)`. -/
def strStartsWith (s pre : String) : Bool := isPrefixL pre.data s.data

/-- `line.split(' ', 1)[-1]`: everything after the first space, or the whole
line when it has no space. -/
def afterFirstSpaceL : List Char → Option (List Char)
  | [] => none
  | c :: rest => if c = ' ' then some rest else afterFirstSpaceL rest

def afterFirstSpace (s : String) : String :=
  match afterFirstSpaceL s.data with
  | some r => String.mk r
  | none => s

/-- `process_defn`: `parts = json.loads(defn)`; one element is a bare key
assigned the empty value; otherwise the code unpacks `key, val,
literal_quote = parts`, which only succeeds for exactly three elements (two
elements raise `ValueError`), expands `val` unless the flag is truthy, and
assigns.  `none` models a raised exception. -/
def process_defn (env : Env) (defn : String) : Option Env :=
  match jsonLoadsArr defn with
  | none => none
  | some [.str key] => some (envSet env key "")
  | some [.str key, .str val, flag] =>
    some (envSet env key (if truthy flag then val else expandvars env val))
  | some _ => none

/-- One line of the manifest: `export <json>` defines, `unset <json>`
removes, anything else is ignored. -/
def applyLine (env : Env) (line : String) : Option Env :=
  let val := afterFirstSpace line
  if strStartsWith line "export " then process_defn env val
  else if strStartsWith line "unset " then
    match jsonLoadsArr val with
    | some (.str key :: _) => some (envPop env key)
    | _ => none
  else some env

/-- `apply_env_vars(raw)`: process every line, then pop
`KITTY_LOGIN_SHELL`, which overrides the login shell if present.  Returns
the new environment and login shell, or `none` when a directive raised. -/
def apply_env_vars (raw : String) (env : Env) (login_shell : String) :
    Option (Env × String) :=
  match (splitLines raw).foldlM applyLine env with
  | none => none
  | some env' =>
    match envGet env' "KITTY_LOGIN_SHELL" with
    | some sh => some (envPop env' "KITTY_LOGIN_SHELL", sh)
    | none => some (env', login_shell)

/-- C4 counterexample: on the manifest line `export ["A","1"]` — an `export`
directive with a two-element JSON array — the interpreter does not set
`A=1`; the unpacking `key, val, literal_quote = parts` raises `ValueError`
(modelled as `none`), so the claim fails at this input. -/
theorem export_two_element_array_raises :
    apply_env_vars "export [\"A\",\"1\"]" [] "/bin/sh" = none := by rfl

theorem isPrefixL_append (p rest : List Char) : isPrefixL p (p ++ rest) = true := by
  induction p with
  | nil => rfl
  | cons c cs ih => simp [isPrefixL, ih]

/-- C4 amended: for every manifest line `export <json>` whose JSON part
parses as a three-element array `[key, value, false]`, the interpreter sets
`key` to `value` after shell-style variable expansion against the current
environment, without raising; the two-element form `[key, value]` of the
original claim instead raises (see the counterexample). -/
theorem export_directive_sets_expanded_value (env : Env) (defn key val : String)
    (hp : jsonLoadsArr defn = some [.str key, .str val, .bool false]) :
    applyLine env ("export " ++ defn) = some (envSet env key (expandvars env val)) := by
  have hpre : strStartsWith ("export " ++ defn) "export " = true := by
    have := isPrefixL_append ("export ".data) defn.data
    simpa [strStartsWith, String.data_append] using this
  have hafter : afterFirstSpace ("export " ++ defn) = defn := by
    have hdata : ("export " ++ defn).data = "export ".data ++ defn.data :=
      String.data_append "export " defn
    simp only [afterFirstSpace, hdata]
    have : afterFirstSpaceL ("export ".data ++ defn.data) = some defn.data := rfl
    rw [this]
  simp only [applyLine, hafter, hpre, if_pos]
  simp [process_defn, hp, truthy]

/-- Witness for `export_directive_sets_expanded_value`: the three-element
directive `export ["A","1",false]` sets `A=1`. -/
theorem export_directive_sets_expanded_value_witness :
    applyLine [] "export [\"A\",\"1\",false]" = some [("A", "1")] := by
  have h := export_directive_sets_expanded_value [] "[\"A\",\"1\",false]" "A" "1" (by rfl)
  exact h

/-! ## Path helpers (`posixpath`) -/

/-- `os.path.basename`: the suffix after the last `/`. -/
def basename (s : String) : String :=
  String.mk ((s.data.reverse.takeWhile (fun c => !(c = '/'))).reverse)

/-- ASCII `str.lower()`. -/
def lowerAscii (s : String) : String := String.mk (s.data.map Char.toLower)

/-- Does the string end in `/`? -/
def endsWithSlash (s : String) : Bool :=
  match s.data.getLast? with
  | some c => c = '/'
  | none => false

/-- Two-argument `os.path.join` (posix). -/
def joinPath (a b : String) : String :=
  if strStartsWith b "/" then b
  else if a = "" || endsWithSlash a then a ++ b
  else a ++ "/" ++ b

/-- `str.split()` (whitespace runs, no empty tokens), as used for
`KITTY_SHELL_INTEGRATION`. -/
def splitWsGo (cur : List Char) : List Char → List String
  | [] => if cur.isEmpty then [] else [String.mk cur.reverse]
  | c :: rest =>
    if isSpaceChar c then
      if cur.isEmpty then splitWsGo [] rest
      else String.mk cur.reverse :: splitWsGo [] rest
    else splitWsGo (c :: cur) rest

def splitWs (s : String) : List String := splitWsGo [] s.data

/-! ## The shell launch selector

The tail of `main` (from the computation of `ksi` on) and the three
`exec_*_with_integration` helpers.  `os.execlp(file, arg0, args...)`
replaces the process; we record the attempted replacement as a
`LaunchOutcome` (per-path existence is abstracted as a boolean oracle
`pathExists` for the zsh startup-file checks).  A helper that can fall
through (zsh with no startup files, or an unsupported shell) returns `none`
together with the environment as it mutated it. -/

/-- The process-replacement decision: program to exec and its argv
(`argv[0]` first). -/
inductive LaunchOutcome where
  | exec (program : String) (argv : List String)
  deriving Repr, DecidableEq

/-- `exec_zsh_with_integration()`: compute the effective `ZDOTDIR`
(explicit value, else `HOME`, clearing/propagating `KITTY_ORIG_ZDOTDIR`);
redirect `ZDOTDIR` to the integration zsh subfolder and exec `-l` only if
one of the standard zsh startup files exists under it; otherwise fall
through with `KITTY_ORIG_ZDOTDIR` popped. -/
def exec_zsh_with_integration (env : Env) (HOME shell_integration_dir login_shell : String)
    (pathExists : String → Bool) : Option LaunchOutcome × Env :=
  let zdotdir0 := (envGet env "ZDOTDIR").getD ""
  let zdotdir := if zdotdir0 = "" then HOME else zdotdir0
  let env1 := if zdotdir0 = "" then envPop env "KITTY_ORIG_ZDOTDIR"
              else envSet env "KITTY_ORIG_ZDOTDIR" zdotdir0
  match [".zshrc", ".zshenv", ".zprofile", ".zlogin"].find?
      (fun q => pathExists (joinPath zdotdir q)) with
  | some _ =>
    (some (.exec login_shell [basename login_shell, "-l"]),
      envSet env1 "ZDOTDIR" (shell_integration_dir ++ "/zsh"))
  | none => (none, envPop env1 "KITTY_ORIG_ZDOTDIR")

/-- `exec_fish_with_integration()`. -/
def exec_fish_with_integration (env : Env) (shell_integration_dir login_shell : String) :
    Option LaunchOutcome × Env :=
  let env1 :=
    if (envGet env "XDG_DATA_DIRS").getD "" = "" then
      envSet env "XDG_DATA_DIRS" shell_integration_dir
    else
      envSet env "XDG_DATA_DIRS"
        (shell_integration_dir ++ ":" ++ (envGet env "XDG_DATA_DIRS").getD "")
  let env2 := envSet env1 "KITTY_FISH_XDG_DATA_DIR" shell_integration_dir
  (some (.exec login_shell [basename login_shell, "-l"]), env2)

/-- `exec_bash_with_integration()`: note the source passes
`os.path.basename('login_shell')` — the string literal — as `argv[0]`. -/
def exec_bash_with_integration (env : Env) (HOME shell_integration_dir login_shell : String) :
    Option LaunchOutcome × Env :=
  let env1 := envSet env "ENV" (joinPath (joinPath shell_integration_dir "bash") "kitty.bash")
  let env2 := envSet env1 "KITTY_BASH_INJECT" "1"
  let env3 :=
    if (envGet env2 "HISTFILE").getD "" = "" then
      envSet (envSet env2 "HISTFILE" (joinPath HOME ".bash_history"))
        "KITTY_BASH_UNEXPORT_HISTFILE" "1"
    else env2
  (some (.exec login_shell [basename "login_shell", "--posix"]), env3)

/-- `exec_with_shell_integration()`: dispatch on the lower-cased shell base
name; unknown shells fall through untouched. -/
def exec_with_shell_integration (env : Env) (HOME shell_integration_dir login_shell : String)
    (pathExists : String → Bool) : Option LaunchOutcome × Env :=
  let shell_name := lowerAscii (basename login_shell)
  if shell_name = "zsh" then
    exec_zsh_with_integration env HOME shell_integration_dir login_shell pathExists
  else if shell_name = "fish" then
    exec_fish_with_integration env shell_integration_dir login_shell
  else if shell_name = "bash" then
    exec_bash_with_integration env HOME shell_integration_dir login_shell
  else (none, env)

/-- The launch-selection tail of `main()`: compute `ksi`; with a one-shot
command, pop `KITTY_SHELL_INTEGRATION` and exec `<shell> -c <cmd>`; with
integration active (non-empty token set without `no-rc`), try the
shell-specific branch; if it falls through (or integration is inactive),
pop `KITTY_SHELL_INTEGRATION` and exec the shell as a login shell with
`argv[0] = '-' + basename`. -/
def launch (env : Env) (HOME shell_integration_dir login_shell : String)
    (exec_cmd : Option String) (pathExists : String → Bool) : LaunchOutcome × Env :=
  let ksi := splitWs ((envGet env "KITTY_SHELL_INTEGRATION").getD "")
  match exec_cmd with
  | some cmd =>
    (.exec login_shell [basename login_shell, "-c", cmd],
      envPop env "KITTY_SHELL_INTEGRATION")
  | none =>
    if ksi ≠ [] ∧ "no-rc" ∉ ksi then
      match exec_with_shell_integration env HOME shell_integration_dir login_shell pathExists with
      | (some o, env') => (o, env')
      | (none, env') =>
        (.exec login_shell ["-" ++ basename login_shell],
          envPop env' "KITTY_SHELL_INTEGRATION")
    else
      (.exec login_shell ["-" ++ basename login_shell],
        envPop env "KITTY_SHELL_INTEGRATION")

/-- C5: whenever a one-shot command is supplied, the launch selector execs
the resolved login shell with arguments `-c <command>`, for every
environment (hence every shell base name and every integration flag set). -/
theorem oneshot_command_always_dash_c (env : Env)
    (HOME shell_integration_dir login_shell cmd : String) (pathExists : String → Bool) :
    launch env HOME shell_integration_dir login_shell (some cmd) pathExists =
      (.exec login_shell [basename login_shell, "-c", cmd],
        envPop env "KITTY_SHELL_INTEGRATION") := rfl

/-- C6: when `KITTY_SHELL_INTEGRATION` contains the token `no-rc` and no
one-shot command is supplied, the shell-specific integration branch is not
entered at all: the environment is only stripped of
`KITTY_SHELL_INTEGRATION` and the process execs the login shell with
`argv[0]` equal to `-` prefixed to its base name. -/
theorem no_rc_skips_integration (env : Env)
    (HOME shell_integration_dir login_shell : String) (pathExists : String → Bool)
    (h : "no-rc" ∈ splitWs ((envGet env "KITTY_SHELL_INTEGRATION").getD "")) :
    launch env HOME shell_integration_dir login_shell none pathExists =
      (.exec login_shell ["-" ++ basename login_shell],
        envPop env "KITTY_SHELL_INTEGRATION") := by
  have hc : ¬ (splitWs ((envGet env "KITTY_SHELL_INTEGRATION").getD "") ≠ [] ∧
      "no-rc" ∉ splitWs ((envGet env "KITTY_SHELL_INTEGRATION").getD "")) :=
    fun ⟨_, hn⟩ => hn h
  simp only [launch, if_neg hc]

/-- Witness for `no_rc_skips_integration`. -/
theorem no_rc_skips_integration_witness :
    launch [("KITTY_SHELL_INTEGRATION", "enabled no-rc")] "/home/u" "/d/shell-integration"
        "/bin/zsh" none (fun _ => true) =
      (.exec "/bin/zsh" ["-zsh"], []) := by
  have h := no_rc_skips_integration [("KITTY_SHELL_INTEGRATION", "enabled no-rc")]
    "/home/u" "/d/shell-integration" "/bin/zsh" (fun _ => true) (by decide)
  exact h

/-- C7: with base name `zsh`, integration active, and none of `.zshrc`,
`.zshenv`, `.zprofile`, `.zlogin` existing under the effective `ZDOTDIR`
(the explicit value, else `HOME`), the selector does not redirect `ZDOTDIR`
(its value in the final environment is unchanged) and does not exec inside
the zsh branch: it falls through to the plain login-shell exec. -/
theorem zsh_no_startup_files_falls_through (env : Env)
    (HOME shell_integration_dir login_shell : String) (pathExists : String → Bool)
    (hzsh : lowerAscii (basename login_shell) = "zsh")
    (hksi : splitWs ((envGet env "KITTY_SHELL_INTEGRATION").getD "") ≠ [] ∧
      "no-rc" ∉ splitWs ((envGet env "KITTY_SHELL_INTEGRATION").getD ""))
    (hnofiles : ∀ q ∈ [".zshrc", ".zshenv", ".zprofile", ".zlogin"],
      pathExists (joinPath
        (if (envGet env "ZDOTDIR").getD "" = "" then HOME else (envGet env "ZDOTDIR").getD "")
        q) = false) :
    (launch env HOME shell_integration_dir login_shell none pathExists).1 =
        .exec login_shell ["-" ++ basename login_shell] ∧
      envGet (launch env HOME shell_integration_dir login_shell none pathExists).2 "ZDOTDIR" =
        envGet env "ZDOTDIR" := by
  have hfind : [".zshrc", ".zshenv", ".zprofile", ".zlogin"].find?
      (fun q => pathExists (joinPath
        (if (envGet env "ZDOTDIR").getD "" = "" then HOME else (envGet env "ZDOTDIR").getD "")
        q)) = none := by
    rw [List.find?_eq_none]
    intro q hq
    simp [hnofiles q hq]
  have hzshbr : exec_zsh_with_integration env HOME shell_integration_dir login_shell pathExists =
      (none, envPop
        (if (envGet env "ZDOTDIR").getD "" = "" then envPop env "KITTY_ORIG_ZDOTDIR"
         else envSet env "KITTY_ORIG_ZDOTDIR" ((envGet env "ZDOTDIR").getD ""))
        "KITTY_ORIG_ZDOTDIR") := by
    simp only [exec_zsh_with_integration, hfind]
  have hint : exec_with_shell_integration env HOME shell_integration_dir login_shell pathExists =
      (none, envPop
        (if (envGet env "ZDOTDIR").getD "" = "" then envPop env "KITTY_ORIG_ZDOTDIR"
         else envSet env "KITTY_ORIG_ZDOTDIR" ((envGet env "ZDOTDIR").getD ""))
        "KITTY_ORIG_ZDOTDIR") := by
    simp only [exec_with_shell_integration, hzsh, if_pos]
    exact hzshbr
  constructor
  · simp only [launch, if_pos hksi, hint]
  · simp only [launch, if_pos hksi, hint]
    rw [envGet_envPop_ne _ _ _ (by decide), envGet_envPop_ne _ _ _ (by decide)]
    by_cases hz : (envGet env "ZDOTDIR").getD "" = ""
    · rw [if_pos hz, envGet_envPop_ne _ _ _ (by decide)]
    · rw [if_neg hz, envGet_envSet_ne _ _ _ _ (by decide)]

/-- Witness for `zsh_no_startup_files_falls_through`: explicit `ZDOTDIR`,
no startup files anywhere. -/
theorem zsh_no_startup_files_falls_through_witness :
    (launch [("KITTY_SHELL_INTEGRATION", "enabled"), ("ZDOTDIR", "/zd")]
        "/home/u" "/d/shell-integration" "/bin/zsh" none (fun _ => false)).1 =
        .exec "/bin/zsh" ["-zsh"] ∧
      envGet (launch [("KITTY_SHELL_INTEGRATION", "enabled"), ("ZDOTDIR", "/zd")]
        "/home/u" "/d/shell-integration" "/bin/zsh" none (fun _ => false)).2 "ZDOTDIR" =
        envGet [("KITTY_SHELL_INTEGRATION", "enabled"), ("ZDOTDIR", "/zd")] "ZDOTDIR" := by
  have h := zsh_no_startup_files_falls_through
    [("KITTY_SHELL_INTEGRATION", "enabled"), ("ZDOTDIR", "/zd")]
    "/home/u" "/d/shell-integration" "/bin/zsh" (fun _ => false)
    (by decide) (by decide) (by decide)
  exact h

/-- C10: in the bash integration launch, `argv[0]` is built from the string
literal `'login_shell'` (via `os.path.basename('login_shell')`), so it is
always the literal word `login_shell`; and since the bash branch is only
reached when the shell's base name lower-cases to `bash`, it is never the
real base name of the resolved login shell. -/
theorem bash_branch_argv0_is_literal (env : Env)
    (HOME shell_integration_dir login_shell : String) (pathExists : String → Bool)
    (hbash : lowerAscii (basename login_shell) = "bash")
    (hksi : splitWs ((envGet env "KITTY_SHELL_INTEGRATION").getD "") ≠ [] ∧
      "no-rc" ∉ splitWs ((envGet env "KITTY_SHELL_INTEGRATION").getD "")) :
    (launch env HOME shell_integration_dir login_shell none pathExists).1 =
        .exec login_shell ["login_shell", "--posix"] ∧
      "login_shell" ≠ basename login_shell := by
  have hne : "login_shell" ≠ basename login_shell := by
    intro he
    rw [← he] at hbash
    exact absurd hbash (by decide)
  have hint : exec_with_shell_integration env HOME shell_integration_dir login_shell pathExists =
      exec_bash_with_integration env HOME shell_integration_dir login_shell := by
    simp only [exec_with_shell_integration, hbash]
    rfl
  refine ⟨?_, hne⟩
  simp only [launch, if_pos hksi, hint, exec_bash_with_integration]
  rfl

/-- Witness for `bash_branch_argv0_is_literal`. -/
theorem bash_branch_argv0_is_literal_witness :
    (launch [("KITTY_SHELL_INTEGRATION", "enabled")] "/home/u" "/d/shell-integration"
        "/usr/bin/bash" none (fun _ => false)).1 =
        .exec "/usr/bin/bash" ["login_shell", "--posix"] ∧
      "login_shell" ≠ basename "/usr/bin/bash" := by
  have h := bash_branch_argv0_is_literal [("KITTY_SHELL_INTEGRATION", "enabled")]
    "/home/u" "/d/shell-integration" "/usr/bin/bash" (fun _ => false)
    (by decide) (by decide)
  exact h

/-! ## The terminal channel and the transfer phase of `main`

`main` opens the controlling terminal, then runs
`try: (set_echo off; send request); get_data() finally: cleanup()`.
`cleanup()` is guarded by the global `tty_file_obj` (set to `None` after
closing), restores echo when the compile-time flag `echo_on` was set, and
closes the handle.  We track the handle as an explicit state record with
counters, so that "released exactly once" is expressible; the `finally`
semantics is that `cleanup` is applied to the terminal state no matter
which of `get_data`'s outcomes (success, status-line `SystemExit`, decode
error, or still-reading) occurred, before `main` continues or the raised
error terminates the process. -/

/-- Terminal-channel state: whether the handle is open (the
`tty_file_obj is not None` guard), whether the device currently echoes, and
how many times echo was restored / the handle was closed. -/
structure TermState where
  isOpen : Bool
  echoEnabled : Bool
  echoRestores : Nat
  closes : Nat
  deriving Repr, DecidableEq

/-- `set_echo(fd, on)`: flip the echo bit. -/
def set_echo (enabled : Bool) (s : TermState) : TermState := { s with echoEnabled := enabled }

/-- `cleanup()`: if the handle is still held, re-enable echo when `echo_on`
was requested at bootstrap start, close the handle and drop it (a second
call is a no-op). -/
def cleanup (echo_on : Bool) (s : TermState) : TermState :=
  if s.isOpen then
    { isOpen := false
      echoEnabled := if echo_on then true else s.echoEnabled
      echoRestores := s.echoRestores + (if echo_on then 1 else 0)
      closes := s.closes + 1 }
  else s

/-- The transfer phase of `main`: open the tty (echo initially on), disable
echo if the script actively requests data, run `get_data`, and — by the
`finally` — apply `cleanup` once regardless of the outcome. -/
def transferPhase (echo_on request_data : Bool) (lines : List String) :
    RecvResult × TermState :=
  let s0 : TermState := ⟨true, true, 0, 0⟩
  let s1 := if request_data then set_echo false s0 else s0
  (get_data lines, cleanup echo_on s1)

/-- C8: on every exit path of the transfer phase — every stream, hence
successful receive, status-line protocol error, decode error, or truncated
stream alike — the terminal release runs exactly once: the handle ends
closed with exactly one close, echo is re-enabled exactly once iff echoing
was globally requested (`echo_on`), and a repeated `cleanup` is a no-op
(the `tty_file_obj = None` guard), so the release cannot run twice. -/
theorem transfer_phase_releases_once (echo_on request_data : Bool) (lines : List String) :
    (transferPhase echo_on request_data lines).2.closes = 1 ∧
      (transferPhase echo_on request_data lines).2.isOpen = false ∧
      (transferPhase echo_on request_data lines).2.echoRestores =
        (if echo_on then 1 else 0) ∧
      (transferPhase echo_on request_data lines).2.echoEnabled =
        (echo_on || !request_data) ∧
      cleanup echo_on (transferPhase echo_on request_data lines).2 =
        (transferPhase echo_on request_data lines).2 ∧
      (transferPhase echo_on request_data lines).1 = get_data lines := by
  cases echo_on <;> cases request_data <;>
    simp [transferPhase, cleanup, set_echo]

/-! ## The recursive directory merge (`move`)

Filesystem trees are finite: a node is a regular file (with abstract
content), a symbolic link (with its target text), or a directory given as
an association list of named children.  `move(src, base_dest)` walks the
entries of `src`: a symlink replaces the destination entry (`os.unlink`
ignoring errors, then `os.symlink` with the same target — `os.unlink` and
`os.symlink` never follow the final path component, so this is a local
update, raising only when a directory is in the way); a directory is
created at the destination if absent and merged recursively; anything else
is `shutil.move`d.

`shutil.move(src, dst)` dispatches on `os.path.isdir(dst)`, which follows
symbolic links: when the colliding destination entry is a symlink whose
(chain of) plain-name target(s) denotes a sibling directory, the file is
moved inside that directory under the source's basename (raising if the
name is taken); when `isdir` is false — the chain ends at a file or a
missing name — `os.rename` replaces the symlink entry itself (the final
component of the rename destination is not followed); when dst is a real
directory the file moves inside it; otherwise the entry is overwritten.
Plain-name targets resolve as siblings in the same directory, which the
entry-list model can compute; a target containing a separator or a dot
component, a chain that leaves the directory or exceeds the fuel (a
cycle), and the other collisions where the outcome depends on state the
model cannot see, are mapped to `none`: the model may fail where Python
succeeds, but never succeeds with a result different from Python's.
`none` also models every raised error.  The recursion is fuel-bounded; the
claims quantify over all fuel. -/

end KittyBootstrap
